import Mathlib

/-!
Shallow embedding of the encrypted-account-vault subsystem of
`apps/extension/src/core/hooks/useAccounts.ts`.

Modelling conventions:
- A JS object used as an ordered string-keyed dictionary is modelled as an
  association list preserving insertion order; `objGet`, `objSet`, `objDelete`
  and `objKeys` mirror property read, spread-set, `delete`, and `Object.keys`.
- The external `pbkdf2` derivation and the external `tweetnacl` secretbox are
  idealized: a derived key is the symbolic pair of password and salt, and a
  sealed box records exactly the plaintext, nonce and key it was produced with,
  so that `secretboxOpen` yields the plaintext when nonce and key match and
  `none` otherwise, matching the authenticated primitive that returns
  "no value" on any mismatch. `bs58` encoding and `JSON.stringify`, both
  reversible codecs, are elided as identities.
- Randomness (`randomBytes` for salts and nonces) is passed as explicit
  parameters.
- Persistent storage, session storage and the change-notification sink are
  folded into a `World` record; `triggerAccountChange` appends to an event log.
- A thrown JS exception is modelled as `(w, some e)` where `w` is the world at
  the throw point; a normal return is `(w, none)`.
-/

namespace Vault

/-- An account record, as in `shared/types` `Account`: address, publicKey,
privateKey, and optional name and mnemonic fields. -/
structure Account where
  address : String
  publicKey : String
  privateKey : String
  name : Option String := none
  mnemonic : Option String := none
deriving Repr, DecidableEq

/-- The decrypted `Accounts` mapping: a JS object from address to `Account`,
modelled as an insertion-ordered association list. -/
abbrev Accounts := List (String × Account)

/-- Property read `m[k]` on a JS object. -/
def objGet (m : Accounts) (k : String) : Option Account :=
  (m.find? (fun p => p.1 == k)).map Prod.snd

/-- JS `delete m[k]`. -/
def objDelete (m : Accounts) (k : String) : Accounts :=
  m.filter (fun p => p.1 != k)

/-- JS spread-update `\x7b ...m, [k]: v \x7d`: overwrites in place when `k` is
present, otherwise appends at the end of iteration order. -/
def objSet (m : Accounts) (k : String) (v : Account) : Accounts :=
  if (m.find? (fun p => p.1 == k)).isSome then
    m.map (fun p => if p.1 == k then (k, v) else p)
  else
    m ++ [(k, v)]

/-- JS `Object.keys`, in iteration order. -/
def objKeys (m : Accounts) : List String :=
  m.map Prod.fst

/-- A symmetric encryption key. The external pbkdf2 derivation is idealized as
the symbolic pair of its inputs, so two keys are equal exactly when password
and salt agree. -/
structure Key where
  password : String
  salt : Nat
deriving Repr, DecidableEq

/-- `deriveEncryptionKey(password, salt)`: idealized deterministic pbkdf2. -/
def deriveEncryptionKey (password : String) (salt : Nat) : Key :=
  ⟨password, salt⟩

/-- A secretbox ciphertext, idealized: it records the plaintext mapping, the
nonce and the key it was sealed with. -/
structure Ciphertext where
  msg : Accounts
  boxNonce : Nat
  boxKey : Key
deriving Repr, DecidableEq

/-- `secretbox(Buffer.from(JSON.stringify(msg)), nonce, key)` from tweetnacl,
idealized as the record of its three inputs. -/
def secretbox (msg : Accounts) (nonce : Nat) (key : Key) : Ciphertext :=
  ⟨msg, nonce, key⟩

/-- `secretbox.open(ciphertext, nonce, key)` from tweetnacl: returns the
plaintext when nonce and key match the ones used to seal, and `none` (JS
`null`) on any mismatch, as the authenticated primitive does. -/
def secretboxOpen (c : Ciphertext) (nonce : Nat) (key : Key) : Option Accounts :=
  if c.boxNonce = nonce ∧ c.boxKey = key then some c.msg else none

/-- The persisted `EncryptedAccounts` value: bs58-encoded ciphertext and
nonce. -/
structure EncryptedAccounts where
  ciphertext : Ciphertext
  nonce : Nat
deriving Repr, DecidableEq

/-- The persistent key-value store slice used by the vault: keys
`activeAccountAddress`, `activeAccountPublicKey`, `encryptedAccounts`,
`encryptedStateVersion`, `salt`. `updatePersistentState` has merge semantics,
so each operation is modelled as updating exactly the fields it names. -/
structure PersistentState where
  activeAccountAddress : Option String := none
  activeAccountPublicKey : Option String := none
  encryptedAccounts : Option EncryptedAccounts := none
  encryptedStateVersion : Option Nat := none
  salt : Option Nat := none
deriving Repr, DecidableEq

/-- The volatile session store slice: keys `accounts` and `encryptionKey`,
both absent when locked. -/
structure SessionState where
  accounts : Option Accounts := none
  encryptionKey : Option Key := none
deriving Repr, DecidableEq

/-- The public projection of an account passed to `triggerAccountChange`. -/
structure PublicAccount where
  address : String
  publicKey : String
deriving Repr, DecidableEq

/-- The whole observable state: persistent store, session store, and the log
of `triggerAccountChange` notifications (`none` models `undefined`). -/
structure World where
  persistent : PersistentState
  session : SessionState
  events : List (Option PublicAccount) := []
deriving Repr, DecidableEq

/-- Failure of the external address-rotation lookup
(`lookupOriginalAddress`): the distinguishable ApiError with errorCode
`table_item_not_found`, or any other error. -/
inductive LookupErr where
  | tableItemNotFound
  | other (msg : String)
deriving Repr, DecidableEq

/-- Errors thrown by the vault operations. `typeErrorNullPlaintext` models the
JS TypeError raised by `Buffer.from(null)` when `secretbox.open` returned
`null` under a non-null assertion; the others are explicitly thrown
`Error`s. -/
inductive Err where
  | invalidPassword
  | typeErrorNullPlaintext
  | incorrectPassword
  | lookup (e : LookupErr)
deriving Repr, DecidableEq

/-- Modelled from the spec: the `latestVersion` constant of `core/constants`
(not under src/); the only migration step targets version 1, and the spec
fixes the persisted version after migration to 1, so the latest version is
1. -/
def latestVersion : Nat := 1

/-- `initAccounts(password, initialAccounts)`: rejects an empty password,
derives a fresh salt and key, seals the initial mapping, persists the vault
with the latest schema version and the first entry of the mapping as active
account, and stores mapping and key in the session. The fresh random salt and
nonce are explicit parameters. -/
def initAccounts (password : String) (initialAccounts : Accounts)
    (newSalt nonce : Nat) (w : World) : World × Option Err :=
  if password.length < 1 then
    (w, some .invalidPassword)
  else
    let newEncryptionKey := deriveEncryptionKey password newSalt
    let ciphertext := secretbox initialAccounts nonce newEncryptionKey
    let newEncryptedAccounts : EncryptedAccounts := ⟨ciphertext, nonce⟩
    let firstAvailableAddress := (objKeys initialAccounts).head?
    let firstAvailableAccount :=
      firstAvailableAddress.bind (fun a => objGet initialAccounts a)
    ({ w with
        persistent := { w.persistent with
          activeAccountAddress := firstAvailableAccount.map (·.address)
          activeAccountPublicKey := firstAvailableAccount.map (·.publicKey)
          encryptedAccounts := some newEncryptedAccounts
          encryptedStateVersion := some latestVersion
          salt := some newSalt }
        session :=
          { accounts := some initialAccounts
            encryptionKey := some newEncryptionKey } },
      none)

/-- `migrateEncryptedState(accounts, encryptionKey)` of the
InitializedAccounts provider, with the provider prop `encryptedStateVersion`
explicit. Returns the mapping unchanged when the version is already latest;
otherwise strips the deprecated `mnemonic` field when the version is below 1,
re-seals under the same key with a fresh nonce, and persists the new vault
with version 1. Returns the (possibly migrated) mapping. -/
def migrateEncryptedState (encryptedStateVersion : Nat) (accounts : Accounts)
    (encryptionKey : Key) (newNonce : Nat) (w : World) : Accounts × World :=
  if encryptedStateVersion = latestVersion then
    (accounts, w)
  else
    let newAccounts :=
      if encryptedStateVersion < 1 then
        accounts.map (fun p => (p.1, { p.2 with mnemonic := none }))
      else accounts
    let newCiphertext := secretbox newAccounts newNonce encryptionKey
    (newAccounts,
      { w with
        persistent := { w.persistent with
          encryptedAccounts := some ⟨newCiphertext, newNonce⟩
          encryptedStateVersion := some 1 } })

/-- `unlockAccounts(password)`, with the provider props `encryptedAccounts`,
`encryptedStateVersion` and `salt` explicit. Derives the key from the stored
salt and opens the vault. The source applies a non-null assertion to
`secretbox.open` and immediately calls `Buffer.from` on the result, so a
failed open raises the JS TypeError modelled by `typeErrorNullPlaintext`
before any state is written; on success it migrates if needed and stores
mapping and key in the session. -/
def unlockAccounts (encryptedAccounts : EncryptedAccounts)
    (encryptedStateVersion : Nat) (salt : Nat) (password : String)
    (migrationNonce : Nat) (w : World) : World × Option Err :=
  let newEncryptionKey := deriveEncryptionKey password salt
  match secretboxOpen encryptedAccounts.ciphertext encryptedAccounts.nonce
      newEncryptionKey with
  | none => (w, some .typeErrorNullPlaintext)
  | some accounts =>
    let migrated :=
      migrateEncryptedState encryptedStateVersion accounts newEncryptionKey
        migrationNonce w
    let newAccounts := migrated.1
    let w1 := migrated.2
    ({ w1 with
        session :=
          { accounts := some newAccounts
            encryptionKey := some newEncryptionKey } },
      none)

/-- `changePassword(oldPassword, newPassword)`, with the provider props
`encryptedAccounts` and `salt` explicit. Opens the current vault with the key
derived from the old password; on failure throws the explicit
`Incorrect current password` error before any write. On success derives a new
salt and key from the new password, re-seals the current mapping, persists the
new vault and salt, and updates the session key. The fresh random salt and
nonce are explicit parameters. -/
def changePassword (encryptedAccounts : EncryptedAccounts) (salt : Nat)
    (oldPassword newPassword : String) (newSalt newNonce : Nat) (w : World) :
    World × Option Err :=
  let encryptionKey := deriveEncryptionKey oldPassword salt
  match secretboxOpen encryptedAccounts.ciphertext encryptedAccounts.nonce
      encryptionKey with
  | none => (w, some .incorrectPassword)
  | some newAccounts =>
    let newEncryptionKey := deriveEncryptionKey newPassword newSalt
    let newCiphertext := secretbox newAccounts newNonce newEncryptionKey
    ({ w with
        persistent := { w.persistent with
          encryptedAccounts := some ⟨newCiphertext, newNonce⟩
          salt := some newSalt }
        session := { w.session with
          encryptionKey := some newEncryptionKey } },
      none)

/-- `encryptAccounts(newAccounts)` of the UnlockedAccounts provider: seals the
mapping under the session key with a fresh nonce. -/
def encryptAccounts (encryptionKey : Key) (newAccounts : Accounts)
    (nonce : Nat) : EncryptedAccounts :=
  ⟨secretbox newAccounts nonce encryptionKey, nonce⟩

/-- `addAccount(account)`: inserts or overwrites by `account.address`,
re-seals, persists the vault with this account as active, updates the session
mapping, and notifies with the new active public account. -/
def addAccount (accounts : Accounts) (encryptionKey : Key) (account : Account)
    (nonce : Nat) (w : World) : World :=
  let newAccounts := objSet accounts account.address account
  let newEncryptedAccounts := encryptAccounts encryptionKey newAccounts nonce
  { w with
    persistent := { w.persistent with
      activeAccountAddress := some account.address
      activeAccountPublicKey := some account.publicKey
      encryptedAccounts := some newEncryptedAccounts }
    session := { w.session with accounts := some newAccounts }
    events := w.events ++ [some ⟨account.address, account.publicKey⟩] }

/-- The key material of an `AptosAccount` handle from the aptos SDK, as used
by this module: its derived address and key pair. -/
structure AptosAccount where
  address : String
  publicKey : String
  privateKey : String
deriving Repr, DecidableEq

/-- Modelled from the spec: `keysFromAptosAccount` of `core/utils/account`
(not under src/) projects the account key material, producing the account
derived directly from the provided key: address, publicKey and privateKey. -/
def keysFromAptosAccount (a : AptosAccount) : Account :=
  { address := a.address, publicKey := a.publicKey, privateKey := a.privateKey }

/-- `lookUpAndAddAccount(aptosAccount, mnemonic?)`. The external
`lookupOriginalAddress` collaborator is passed as its result: on success the
resolved account is added; on the ApiError with errorCode
`table_item_not_found` the account derived from the provided key material (and
mnemonic, when given) is added; any other lookup error is re-thrown and
nothing is added. -/
def lookUpAndAddAccount (accounts : Accounts) (encryptionKey : Key)
    (lookupResult : Except LookupErr Account) (aptosAccount : AptosAccount)
    (mnemonic : Option String) (nonce : Nat) (w : World) : World × Option Err :=
  match lookupResult with
  | .ok newAccount => (addAccount accounts encryptionKey newAccount nonce w, none)
  | .error e =>
    if e = .tableItemNotFound then
      let newAccount :=
        match mnemonic with
        | some m => { keysFromAptosAccount aptosAccount with mnemonic := some m }
        | none => keysFromAptosAccount aptosAccount
      (addAccount accounts encryptionKey newAccount nonce w, none)
    else
      (w, some (.lookup e))

/-- `updateActiveAccount(newAccount)`: deletes and re-inserts the account at
its address (moving it to the end of iteration order), re-seals, persists the
vault with this account as active, notifies, and updates the session
mapping. -/
def updateActiveAccount (accounts : Accounts) (encryptionKey : Key)
    (newAccount : Account) (nonce : Nat) (w : World) : World :=
  let newAccounts :=
    objSet (objDelete accounts newAccount.address) newAccount.address newAccount
  let newEncryptedAccounts := encryptAccounts encryptionKey newAccounts nonce
  { w with
    persistent := { w.persistent with
      activeAccountAddress := some newAccount.address
      activeAccountPublicKey := some newAccount.publicKey
      encryptedAccounts := some newEncryptedAccounts }
    session := { w.session with accounts := some newAccounts }
    events := w.events ++ [some ⟨newAccount.address, newAccount.publicKey⟩] }

/-- `removeAccount(address)`: deletes by address and re-seals. When the
removed address was the active one (read from persistent state), the first
remaining entry in iteration order (or none) becomes the active account, the
choice is persisted together with the new vault, and the notifier is invoked
with its public info or with `undefined`; otherwise only the vault is
persisted. The session mapping is updated in both cases. -/
def removeAccount (accounts : Accounts) (encryptionKey : Key)
    (address : String) (nonce : Nat) (w : World) : World :=
  let newAccounts := objDelete accounts address
  let newEncryptedAccounts := encryptAccounts encryptionKey newAccounts nonce
  if some address = w.persistent.activeAccountAddress then
    let firstAvailableAddress := (objKeys newAccounts).head?
    let firstAvailableAccount :=
      firstAvailableAddress.bind (fun a => objGet newAccounts a)
    let publicAccount :=
      firstAvailableAccount.map (fun a => PublicAccount.mk a.address a.publicKey)
    { w with
      persistent := { w.persistent with
        activeAccountAddress := firstAvailableAccount.map (·.address)
        activeAccountPublicKey := firstAvailableAccount.map (·.publicKey)
        encryptedAccounts := some newEncryptedAccounts }
      session := { w.session with accounts := some newAccounts }
      events := w.events ++ [publicAccount] }
  else
    { w with
      persistent := { w.persistent with
        encryptedAccounts := some newEncryptedAccounts }
      session := { w.session with accounts := some newAccounts } }

/-- `renameAccount(address, newName)`: no-op when the address is absent;
otherwise updates only the `name` field, re-seals and persists, with no
notification. -/
def renameAccount (accounts : Accounts) (encryptionKey : Key)
    (address : String) (newName : String) (nonce : Nat) (w : World) : World :=
  if (objGet accounts address).isSome then
    let newAccounts :=
      accounts.map (fun p =>
        if p.1 == address then (p.1, { p.2 with name := some newName }) else p)
    let newEncryptedAccounts := encryptAccounts encryptionKey newAccounts nonce
    { w with
      persistent := { w.persistent with
        encryptedAccounts := some newEncryptedAccounts }
      session := { w.session with accounts := some newAccounts } }
  else
    w

/-- `switchAccount(address)`: persists the given address as active without
checking membership, persists the looked-up public key when the address is
present (and `undefined` otherwise), leaves the vault and the session mapping
untouched, and notifies with the public account or `undefined`. -/
def switchAccount (accounts : Accounts) (address : String) (w : World) :
    World :=
  let publicKey := (objGet accounts address).map (·.publicKey)
  let publicAccount := publicKey.map (fun pk => PublicAccount.mk address pk)
  { w with
    persistent := { w.persistent with
      activeAccountAddress := some address
      activeAccountPublicKey := publicAccount.map (·.publicKey) }
    events := w.events ++ [publicAccount] }

/-! Theorems -/

/-- C6: for every initial account mapping and every password of length below
1, `initAccounts` fails with the InvalidPassword error and writes no
persistent or session state. -/
theorem initAccounts_empty_password_invalid (w : World) (M : Accounts)
    (P : String) (newSalt nonce : Nat) (h : P.length < 1) :
    initAccounts P M newSalt nonce w = (w, some .invalidPassword) := by
  simp [initAccounts, h]

/-- Witness for C6 at the empty password. -/
theorem initAccounts_empty_password_invalid_witness :
    initAccounts "" [] 0 0 { persistent := {}, session := {} } =
      ({ persistent := {}, session := {} }, some .invalidPassword) :=
  initAccounts_empty_password_invalid _ _ _ _ _ (by decide)

/-- C7: for every mapping `M` and version `v` equal to the latest version
constant, `migrateEncryptedState` returns `M` unchanged and leaves the world
untouched: no re-seal and no persistent write. -/
theorem migrateEncryptedState_latest_noop (M : Accounts) (key : Key)
    (nonce : Nat) (w : World) (v : Nat) (h : v = latestVersion) :
    migrateEncryptedState v M key nonce w = (M, w) := by
  simp [migrateEncryptedState, h]

/-- Witness for C7 at version 1. -/
theorem migrateEncryptedState_latest_noop_witness :
    migrateEncryptedState 1 [] ⟨"p", 0⟩ 0 { persistent := {}, session := {} } =
      ([], { persistent := {}, session := {} }) :=
  migrateEncryptedState_latest_noop _ _ _ _ _ (by decide)

/-- C5: whenever the key derived from the old password does not open the
current vault, `changePassword` fails with the IncorrectPassword error and
leaves the whole world (persistent state, session state, notifications)
unchanged. -/
theorem changePassword_wrong_old_password (ea : EncryptedAccounts)
    (salt : Nat) (oldP newP : String) (newSalt newNonce : Nat) (w : World)
    (h : secretboxOpen ea.ciphertext ea.nonce
        (deriveEncryptionKey oldP salt) = none) :
    changePassword ea salt oldP newP newSalt newNonce w =
      (w, some .incorrectPassword) := by
  simp [changePassword, h]

/-- Witness for C5: a vault sealed under password pw1 opened with pw2. -/
theorem changePassword_wrong_old_password_witness :
    changePassword ⟨secretbox [] 0 ⟨"pw1", 5⟩, 0⟩ 5 "pw2" "new" 6 7
      { persistent := {}, session := {} } =
      ({ persistent := {}, session := {} }, some .incorrectPassword) :=
  changePassword_wrong_old_password _ _ _ _ _ _ _ (by decide)

/-- C1: at a concrete failing input (vault sealed under the key derived from
password pw1, unlocked with password pw2 whose derived key differs),
`unlockAccounts` fails with the modelled TypeError crash raised by
`Buffer.from(null)` after the non-null assertion on `secretbox.open`, not
with an explicit DecryptionFailed error; the world is left unchanged. -/
theorem unlockAccounts_wrong_password_crashes :
    unlockAccounts ⟨secretbox [] 0 (deriveEncryptionKey "pw1" 5), 0⟩ 1 5
      "pw2" 9 { persistent := {}, session := {} } =
      ({ persistent := {}, session := {} }, some .typeErrorNullPlaintext) := by
  decide

/-- C9: for every mapping and every address `A`, member of the mapping or
not, `switchAccount A` persists `A` as the active-account address, leaves the
vault and the whole session state unchanged, and appends exactly one
notification carrying the public account when `A` is present and the JS
`undefined` otherwise; no membership validation is performed. -/
theorem switchAccount_sets_pointer_only (accounts : Accounts) (A : String)
    (w : World) :
    (switchAccount accounts A w).persistent.activeAccountAddress = some A ∧
    (switchAccount accounts A w).persistent.encryptedAccounts =
      w.persistent.encryptedAccounts ∧
    (switchAccount accounts A w).session = w.session ∧
    (switchAccount accounts A w).events = w.events ++
      [(objGet accounts A).map (fun a => PublicAccount.mk A a.publicKey)] := by
  cases h : objGet accounts A <;> simp [switchAccount, h]

/-- C10: for every prior world and every account `X`, `updateActiveAccount X`
persists the address and publicKey of `X` as the active-account pointer and
notifies the change sink with the public info of `X`, whether or not `X` was
previously active. -/
theorem updateActiveAccount_makes_active (accounts : Accounts)
    (encryptionKey : Key) (X : Account) (nonce : Nat) (w : World) :
    (updateActiveAccount accounts encryptionKey X nonce w).persistent.activeAccountAddress
        = some X.address ∧
    (updateActiveAccount accounts encryptionKey X nonce w).persistent.activeAccountPublicKey
        = some X.publicKey ∧
    (updateActiveAccount accounts encryptionKey X nonce w).events =
      w.events ++ [some (PublicAccount.mk X.address X.publicKey)] := by
  simp [updateActiveAccount]

/-- C2: for every mapping `M` and non-empty password `P`, sealing `M` under
the key derived from `P` and a fresh salt, as `initAccounts` does, and then
opening the persisted vault with the key derived from `P` and the persisted
salt, as `unlockAccounts` does, succeeds and yields exactly `M` in the
session. -/
theorem initAccounts_unlockAccounts_roundtrip (w : World) (M : Accounts)
    (P : String) (hP : 1 ≤ P.length) (salt nonce mn : Nat) :
    ∃ w1 ea,
      initAccounts P M salt nonce w = (w1, none) ∧
      w1.persistent.encryptedAccounts = some ea ∧
      w1.persistent.salt = some salt ∧
      w1.persistent.encryptedStateVersion = some latestVersion ∧
      ∃ w2,
        unlockAccounts ea latestVersion salt P mn w1 = (w2, none) ∧
        w2.session.accounts = some M := by
  have h : ¬ P.length < 1 := Nat.not_lt.mpr hP
  simp only [initAccounts, if_neg h]
  refine ⟨_, _, rfl, rfl, rfl, rfl, ?_⟩
  simp [unlockAccounts, secretbox, secretboxOpen, migrateEncryptedState]

/-- Witness for C2 with a one-account mapping and password pw. -/
theorem initAccounts_unlockAccounts_roundtrip_witness :
    1 ≤ ("pw" : String).length ∧
    ∃ w1 ea,
      initAccounts "pw" [("a", ⟨"a", "pub", "priv", none, none⟩)] 3 4
          { persistent := {}, session := {} } = (w1, none) ∧
      w1.persistent.encryptedAccounts = some ea ∧
      w1.persistent.salt = some 3 ∧
      w1.persistent.encryptedStateVersion = some latestVersion ∧
      ∃ w2,
        unlockAccounts ea latestVersion 3 "pw" 5 w1 = (w2, none) ∧
        w2.session.accounts = some [("a", ⟨"a", "pub", "priv", none, none⟩)] :=
  ⟨by decide,
    initAccounts_unlockAccounts_roundtrip _ _ _ (by decide) _ _ _⟩

/-- C4: for every vault persisted at schema version 0 and sealed under the
key derived from the correct password, `unlockAccounts` succeeds, the session
mapping is the stored mapping with the mnemonic field of every account
removed and all other fields untouched, and the vault re-sealed from that
stripped mapping under the same key is persisted together with schema
version 1. -/
theorem unlockAccounts_migrates_version_zero (M : Accounts) (P : String)
    (salt boxNonce mn : Nat) (w : World) :
    ∃ w2,
      unlockAccounts ⟨secretbox M boxNonce (deriveEncryptionKey P salt),
          boxNonce⟩ 0 salt P mn w = (w2, none) ∧
      w2.session.accounts =
        some (M.map (fun p => (p.1, { p.2 with mnemonic := none }))) ∧
      w2.persistent.encryptedStateVersion = some 1 ∧
      w2.persistent.encryptedAccounts =
        some ⟨secretbox (M.map (fun p => (p.1, { p.2 with mnemonic := none })))
          mn (deriveEncryptionKey P salt), mn⟩ := by
  simp [unlockAccounts, secretbox, secretboxOpen, migrateEncryptedState,
    latestVersion]

/-- C8: when the address-rotation lookup fails with the not-found condition,
`lookUpAndAddAccount` adds the account derived directly from the provided key
material, so the stored address, publicKey and privateKey equal the locally
derived ones and that address becomes active; when the lookup fails with any
other error, that error propagates to the caller and the world is unchanged,
so no account is added. -/
theorem lookUpAndAddAccount_notfound_fallback (accounts : Accounts)
    (encryptionKey : Key) (aptosAccount : AptosAccount)
    (mnemonic : Option String) (nonce : Nat) (w : World) (e : LookupErr)
    (hE : e ≠ .tableItemNotFound) :
    (∃ acc,
      (lookUpAndAddAccount accounts encryptionKey (.error .tableItemNotFound)
          aptosAccount mnemonic nonce w) =
        (addAccount accounts encryptionKey acc nonce w, none) ∧
      acc.address = aptosAccount.address ∧
      acc.publicKey = aptosAccount.publicKey ∧
      acc.privateKey = aptosAccount.privateKey ∧
      (addAccount accounts encryptionKey acc nonce w).session.accounts =
        some (objSet accounts aptosAccount.address acc) ∧
      (addAccount accounts encryptionKey acc nonce
          w).persistent.activeAccountAddress = some aptosAccount.address) ∧
    lookUpAndAddAccount accounts encryptionKey (.error e) aptosAccount
      mnemonic nonce w = (w, some (.lookup e)) := by
  constructor
  · cases mnemonic <;>
      exact ⟨_, rfl, rfl, rfl, rfl, rfl, rfl⟩
  · simp [lookUpAndAddAccount, hE]

/-- Witness for C8 with a concrete candidate account and the error
other boom. -/
theorem lookUpAndAddAccount_notfound_fallback_witness :
    LookupErr.other "boom" ≠ LookupErr.tableItemNotFound ∧
    ((∃ acc,
      (lookUpAndAddAccount [] ⟨"pw", 0⟩ (.error .tableItemNotFound)
          ⟨"ad", "pub", "priv"⟩ none 4 { persistent := {}, session := {} }) =
        (addAccount [] ⟨"pw", 0⟩ acc 4 { persistent := {}, session := {} },
          none) ∧
      acc.address = "ad" ∧
      acc.publicKey = "pub" ∧
      acc.privateKey = "priv" ∧
      (addAccount [] ⟨"pw", 0⟩ acc 4
          { persistent := {}, session := {} }).session.accounts =
        some (objSet [] "ad" acc) ∧
      (addAccount [] ⟨"pw", 0⟩ acc 4
          { persistent := {}, session := {} }).persistent.activeAccountAddress =
        some "ad") ∧
    lookUpAndAddAccount [] ⟨"pw", 0⟩ (.error (.other "boom"))
      ⟨"ad", "pub", "priv"⟩ none 4 { persistent := {}, session := {} } =
      ({ persistent := {}, session := {} },
        some (.lookup (.other "boom")))) :=
  ⟨by decide,
    lookUpAndAddAccount_notfound_fallback _ _ _ _ _ _ _ (by decide)⟩

/-- C3: for every mapping satisfying the data-model invariant that each entry
stores an account whose address field equals its key, and every address `A`
currently active, `removeAccount A` persists as active address the first
remaining entry of the mapping in iteration order, hence a member of the
remaining mapping, or unsets it when the mapping becomes empty, and invokes
the notifier once with the public info of that account or with the JS
`undefined` when empty. -/
theorem removeAccount_active_reassigns (accounts : Accounts)
    (encryptionKey : Key) (A : String) (nonce : Nat) (w : World)
    (hActive : w.persistent.activeAccountAddress = some A)
    (hWF : ∀ p ∈ accounts, (p.2 : Account).address = p.1) :
    (removeAccount accounts encryptionKey A nonce w).persistent.activeAccountAddress
        = (objDelete accounts A).head?.map Prod.fst ∧
    (∀ k, (removeAccount accounts encryptionKey A nonce w).persistent.activeAccountAddress
        = some k → k ∈ objKeys (objDelete accounts A)) ∧
    (objDelete accounts A = [] →
      (removeAccount accounts encryptionKey A nonce w).persistent.activeAccountAddress
        = none) ∧
    (removeAccount accounts encryptionKey A nonce w).events = w.events ++
      [(objDelete accounts A).head?.map
        (fun p => PublicAccount.mk p.2.address p.2.publicKey)] := by
  unfold removeAccount
  rw [if_pos hActive.symm]
  cases hN : objDelete accounts A with
  | nil => simp [hN, objKeys]
  | cons p t =>
    obtain ⟨k, a⟩ := p
    have hmem : (k, a) ∈ accounts := by
      have hmem₀ : (k, a) ∈ objDelete accounts A := by
        rw [hN]; exact List.mem_cons_self _ _
      exact List.mem_of_mem_filter hmem₀
    have haddr : a.address = k := hWF _ hmem
    simp [hN, objKeys, objGet, List.find?, haddr]

/-- Witness for C3 on a two-account mapping with the first account active. -/
theorem removeAccount_active_reassigns_witness :
    ({ persistent := { activeAccountAddress := some "a" }, session := {},
        events := [] } : World).persistent.activeAccountAddress = some "a" ∧
    (∀ p ∈ ([("a", ⟨"a", "pa", "sa", none, none⟩),
        ("b", ⟨"b", "pb", "sb", none, none⟩)] : Accounts),
      (p.2 : Account).address = p.1) ∧
    ((removeAccount [("a", ⟨"a", "pa", "sa", none, none⟩),
        ("b", ⟨"b", "pb", "sb", none, none⟩)] ⟨"pw", 0⟩ "a" 4
        { persistent := { activeAccountAddress := some "a" }, session := {},
          events := [] }).persistent.activeAccountAddress
        = (objDelete [("a", ⟨"a", "pa", "sa", none, none⟩),
            ("b", ⟨"b", "pb", "sb", none, none⟩)] "a").head?.map Prod.fst ∧
      (∀ k, (removeAccount [("a", ⟨"a", "pa", "sa", none, none⟩),
          ("b", ⟨"b", "pb", "sb", none, none⟩)] ⟨"pw", 0⟩ "a" 4
          { persistent := { activeAccountAddress := some "a" }, session := {},
            events := [] }).persistent.activeAccountAddress
          = some k → k ∈ objKeys (objDelete [("a", ⟨"a", "pa", "sa", none, none⟩),
            ("b", ⟨"b", "pb", "sb", none, none⟩)] "a")) ∧
      (objDelete [("a", ⟨"a", "pa", "sa", none, none⟩),
          ("b", ⟨"b", "pb", "sb", none, none⟩)] "a" = [] →
        (removeAccount [("a", ⟨"a", "pa", "sa", none, none⟩),
            ("b", ⟨"b", "pb", "sb", none, none⟩)] ⟨"pw", 0⟩ "a" 4
            { persistent := { activeAccountAddress := some "a" },
              session := {}, events := [] }).persistent.activeAccountAddress
          = none) ∧
      (removeAccount [("a", ⟨"a", "pa", "sa", none, none⟩),
          ("b", ⟨"b", "pb", "sb", none, none⟩)] ⟨"pw", 0⟩ "a" 4
          { persistent := { activeAccountAddress := some "a" }, session := {},
            events := [] }).events = [] ++
        [(objDelete [("a", ⟨"a", "pa", "sa", none, none⟩),
            ("b", ⟨"b", "pb", "sb", none, none⟩)] "a").head?.map
          (fun p => PublicAccount.mk p.2.address p.2.publicKey)]) :=
  ⟨rfl, by decide,
    removeAccount_active_reassigns _ _ _ _ _ rfl (by decide)⟩

end Vault
